import Mathlib

/-!
Verification development for the facturia invoice API.

The definitions below are a shallow embedding of the SQL queries and
JavaScript handlers in routes/analytics.js, routes/invoices.js,
routes/suppliers.js and config/database.js.  Conventions:

* SQL numeric amounts are rationals, SQL counts are naturals.
* Timestamps are modelled at date granularity (a calendar date); no claim
  in scope depends on the time of day within a date.
* A SQL query over the invoices table becomes a function over a list of
  invoice rows; WHERE clauses become filters, GROUP BY becomes a list of
  deduplicated keys together with one filtered sublist per key, aggregates
  become sums, lengths and folds over those sublists.
* Nullable columns become Option types; SQL comparisons with NULL are
  false, matching three-valued logic restricted to the rows a WHERE keeps.
* The rows produced by external PostgreSQL are modelled only as far as the
  queries in the sources exercise them; columns never read by any claim
  (currency, tax id, description, payment rows) are omitted from records.
-/

namespace Facturia

/-- Calendar date.  Field values describe a proleptic Gregorian date; all
comparisons in the embedding go through the day-number conversion below. -/
structure Date where
  year : Int
  month : Int
  day : Int
deriving DecidableEq

/-- Gregorian leap-year rule, used by the month-length table. -/
def isLeapYear (y : Int) : Bool :=
  y % 4 == 0 && (y % 100 != 0 || y % 400 == 0)

/-- Number of days of a month in the Gregorian calendar. -/
def daysInMonth (y m : Int) : Int :=
  if m = 2 then (if isLeapYear y then 29 else 28)
  else if m = 4 ∨ m = 6 ∨ m = 9 ∨ m = 11 then 30
  else 31

/-- Days elapsed since 1970-01-01 (negative before).  This is the standard
civil-calendar conversion, written with floor division. -/
def dayNumber (dt : Date) : Int :=
  let y := if dt.month ≤ 2 then dt.year - 1 else dt.year
  let era := Int.fdiv y 400
  let yoe := y - era * 400
  let mp := Int.emod (dt.month + 9) 12
  let doy := Int.fdiv (153 * mp + 2) 5 + dt.day - 1
  let doe := yoe * 365 + Int.fdiv yoe 4 - Int.fdiv yoe 100 + doy
  era * 146097 + doe - 719468

/-- Month key of a date, as produced by DATE_TRUNC month: a single integer
counting calendar months. -/
def monthIdx (dt : Date) : Int :=
  dt.year * 12 + (dt.month - 1)

/-- Date shifted by n calendar months, clamping the day to the length of
the target month, as the PostgreSQL month interval arithmetic does. -/
def addMonths (dt : Date) (n : Int) : Date :=
  let t := monthIdx dt + n
  let y := Int.fdiv t 12
  let m := Int.emod t 12 + 1
  { year := y, month := m, day := min dt.day (daysInMonth y m) }

/-- Invoice status enum of the invoices table. -/
inductive Status where
  | pending
  | confirmed
  | paid
deriving DecidableEq

/-- String form of a status value as stored in the status column. -/
def statusToString : Status → String
  | .pending => "pending"
  | .confirmed => "confirmed"
  | .paid => "paid"

/-- One row of the invoices table, restricted to the columns the claims
read.  Non-modelled columns: currency, tax id, description, updated_at. -/
structure Invoice where
  id : Nat
  company_phone : String
  supplier_name : String
  amount : Rat
  status : Status
  invoice_date : Option Date
  due_date : Option Date
  created_at : Date
  confirmed_at : Option Date
  category : Option String
deriving DecidableEq

/-- Sum of the amount column over a list of rows, the meaning of
COALESCE(SUM(amount), 0). -/
def sumAmounts (l : List Invoice) : Rat :=
  (l.map (fun i => i.amount)).sum

/-- Rounding of ROUND(x, 2) on PostgreSQL numerics: half away from zero,
two decimal digits. -/
def pgRound2 (q : Rat) : Rat :=
  if 0 ≤ q then ((⌊q * 100 + 1/2⌋ : Int) : Rat) / 100
  else -(((⌊-(q * 100) + 1/2⌋ : Int) : Rat) / 100)

/-- Distinct group keys of a GROUP BY over key function k, in the ascending
order the ORDER BY month clauses request. -/
def monthKeys (l : List Invoice) (k : Invoice → Int) : List Int :=
  ((l.map k).dedup).insertionSort (fun a b => a ≤ b)

/-- Month key of the due_date column (callers only apply it to rows whose
due_date the WHERE clause has already forced to be present). -/
def dueMonth (i : Invoice) : Int :=
  match i.due_date with
  | some d => monthIdx d
  | none => 0

/-- Month key of the invoice_date column, same convention as dueMonth. -/
def invMonth (i : Invoice) : Int :=
  match i.invoice_date with
  | some d => monthIdx d
  | none => 0

/-! Cash-flow projector, GET /api/analytics/cashflow in routes/analytics.js.
The monthly_cashflow CTE keeps rows with due_date between NOW() minus the
requested months and NOW() plus 3 months, groups them by DATE_TRUNC month
of due_date, and aggregates. -/

/-- WHERE clause of the monthly_cashflow CTE on one row. -/
def cashflowWindow (today : Date) (months : Int) (i : Invoice) : Bool :=
  match i.due_date with
  | none => false
  | some d =>
      decide (dayNumber (addMonths today (-months)) ≤ dayNumber d) &&
      decide (dayNumber d ≤ dayNumber (addMonths today 3))

/-- Overdue filter of the CTE: due_date before the current date and status
distinct from paid. -/
def cashflowOverdue (today : Date) (i : Invoice) : Bool :=
  match i.due_date with
  | none => false
  | some d => decide (dayNumber d < dayNumber today) && decide (i.status ≠ Status.paid)

/-- One bucket of the monthly_cashflow output, after the COALESCE wrapping
in the surrounding json_build_object. -/
structure CashflowBucket where
  month : Int
  pending_payments : Rat
  completed_payments : Rat
  overdue_count : Nat
  overdue_amount : Rat
deriving DecidableEq

/-- Aggregates of one due-date month group g. -/
def cashflowBucket (today : Date) (m : Int) (g : List Invoice) : CashflowBucket :=
  { month := m
    pending_payments := sumAmounts (g.filter (fun i => i.status = Status.confirmed))
    completed_payments := sumAmounts (g.filter (fun i => i.status = Status.paid))
    overdue_count := (g.filter (fun i => cashflowOverdue today i)).length
    overdue_amount := sumAmounts (g.filter (fun i => cashflowOverdue today i)) }

/-- Meaning of the monthly_cashflow CTE with the company placeholder bound:
one bucket per month that has at least one in-window invoice of the
company, in ascending month order. -/
def cashflowMonthly (today : Date) (months : Int) (company : String)
    (store : List Invoice) : List CashflowBucket :=
  let rows := store.filter
    (fun i => i.company_phone == company && cashflowWindow today months i)
  (monthKeys rows dueMonth).map
    (fun m => cashflowBucket today m (rows.filter (fun i => dueMonth i == m)))

/-- Bind parameters the cashflow route passes to query(): the call at the
end of the route template supplies no values array at all. -/
def cashflowQueryParams : List String := []

/-- Number of bind placeholders the cashflow SQL text references: the two
CTEs both use the placeholder number one. -/
def cashflowRequiredBindings : Nat := 1

/-- Route handler: node-postgres rejects a query whose text references a
placeholder that no supplied value binds, and the catch block of the route
turns any store error into the generic 500 response. -/
def cashflowHandler (today : Date) (months : Int) (company : String)
    (store : List Invoice) : Except Nat (List CashflowBucket) :=
  if cashflowRequiredBindings ≤ cashflowQueryParams.length then
    Except.ok (cashflowMonthly today months company store)
  else Except.error 500

/-! Forecast estimator, GET /api/analytics/predictions in
routes/analytics.js.  The growth_rate CTE takes the monthly totals of the
invoice_date months in the trailing six months, keeps the two most recent
such months, and combines their MAX and MIN. -/

/-- WHERE clause invoice_date at or after NOW() minus n months. -/
def invoiceWindowMonths (today : Date) (n : Int) (i : Invoice) : Bool :=
  match i.invoice_date with
  | none => false
  | some d => decide (dayNumber (addMonths today (-n)) ≤ dayNumber d)

/-- Monthly invoice totals of a company over the trailing n months of
invoice_date, ascending by month: the monthly_data shape shared by the
predictions and trends routes. -/
def monthlyTotalsAsc (today : Date) (n : Int) (company : String)
    (store : List Invoice) : List (Int × Rat) :=
  let rows := store.filter
    (fun i => i.company_phone == company && invoiceWindowMonths today n i)
  (monthKeys rows invMonth).map
    (fun m => (m, sumAmounts (rows.filter (fun i => invMonth i == m))))

/-- Subquery of the growth_rate CTE: ORDER BY month DESC LIMIT 2 over the
six-month monthly totals. -/
def lastTwoMonthlyTotals (today : Date) (company : String)
    (store : List Invoice) : List (Int × Rat) :=
  ((monthlyTotalsAsc today 6 company store).reverse).take 2

/-- Value of monthly_growth_rate in the predictions route: when two rows
survive the LIMIT, (MAX(monthly_total) - MIN(monthly_total)) divided by
MIN(monthly_total) times 100, else 0. -/
def predictionsGrowthRate (today : Date) (company : String)
    (store : List Invoice) : Rat :=
  match lastTwoMonthlyTotals today company store with
  | [a, b] => (max a.2 b.2 - min a.2 b.2) / min a.2 b.2 * 100
  | _ => 0

/-- Growth formula the specification text states: signed percent change of
the latest total against the previous total, 0 on a zero base.  Stated
from the specification for comparison with predictionsGrowthRate. -/
def claimedSignedGrowth (latest previous : Rat) : Rat :=
  if previous = 0 then 0 else (latest - previous) / previous * 100

/-! Status change, PATCH /api/invoices/:id/status in routes/invoices.js.
The route first validates the requested status against the three-value
allow list and then runs an UPDATE whose confirmed_at column is set to
NOW() whenever the new status string equals confirmed, keeping the old
value otherwise.  The updated_at column is not modelled. -/

/-- Parse of the requested status string; none exactly when the allow-list
check of the route rejects the request with 400. -/
def statusOfString (s : String) : Option Status :=
  if s == "pending" then some Status.pending
  else if s == "confirmed" then some Status.confirmed
  else if s == "paid" then some Status.paid
  else none

/-- Effect of the status-change UPDATE on one invoice row. -/
def changeInvoiceStatus (now : Date) (s : String) (inv : Invoice) :
    Except Nat Invoice :=
  match statusOfString s with
  | none => Except.error 400
  | some st =>
      Except.ok { inv with
        status := st
        confirmed_at := if s == "confirmed" then some now else inv.confirmed_at }

/-! Metric aggregator, GET /api/analytics/dashboard in routes/analytics.js.
The current-period filter comes from a switch over the period string with
a 30-day default; the previous-period filter is built by splicing the
period string, rewritten by two first-occurrence character replacements,
into an INTERVAL literal of the SQL text. -/

/-- Interval value of the store, reduced to the two field kinds the
dashboard can produce: whole days or whole months. -/
inductive PgInterval where
  | days (n : Int)
  | months (n : Int)
deriving DecidableEq

/-- Day number of today minus an interval. -/
def intervalLowerDn (today : Date) : PgInterval → Int
  | .days n => dayNumber today - n
  | .months n => dayNumber (addMonths today (-n))

/-- Interval multiplied by two, as INTERVAL times 2 scales each field. -/
def intervalTwice : PgInterval → PgInterval
  | .days n => .days (2 * n)
  | .months n => .months (2 * n)

/-- Current-period filter of the dashboard: the dateFilter switch over the
period string, with the default branch equal to the 30-day branch. -/
def dashboardCurrentWindow (period : String) (today : Date) (i : Invoice) : Bool :=
  if period == "7d" then decide (dayNumber today - 7 ≤ dayNumber i.created_at)
  else if period == "30d" then decide (dayNumber today - 30 ≤ dayNumber i.created_at)
  else if period == "90d" then decide (dayNumber today - 90 ≤ dayNumber i.created_at)
  else if period == "1y" then
    decide (dayNumber (addMonths today (-12)) ≤ dayNumber i.created_at)
  else decide (dayNumber today - 30 ≤ dayNumber i.created_at)

/-- Previous-period filter of the dashboard: created_at strictly before
today minus the interval and at or after today minus twice the interval. -/
def dashboardPrevWindow (today : Date) (iv : PgInterval) (i : Invoice) : Bool :=
  decide (dayNumber i.created_at < intervalLowerDn today iv) &&
  decide (intervalLowerDn today (intervalTwice iv) ≤ dayNumber i.created_at)

/-- Columns of the dashboard metrics row the claims read. -/
structure DashboardMetrics where
  total_invoices : Nat
  total_amount : Rat
  prev_total_invoices : Nat
  prev_total_amount : Rat
  amount_change_percent : Rat
  invoices_change_percent : Rat
deriving DecidableEq

/-- Meaning of the dashboard metrics query for a given parsed
previous-period interval: period_stats and previous_period_stats CTEs, and
the two CASE WHEN percent columns. -/
def dashboardMetrics (period : String) (today : Date) (company : String)
    (store : List Invoice) (iv : PgInterval) : DashboardMetrics :=
  let cur := store.filter
    (fun i => i.company_phone == company && dashboardCurrentWindow period today i)
  let prev := store.filter
    (fun i => i.company_phone == company && dashboardPrevWindow today iv i)
  let ta := sumAmounts cur
  let pa := sumAmounts prev
  { total_invoices := cur.length
    total_amount := ta
    prev_total_invoices := prev.length
    prev_total_amount := pa
    amount_change_percent := if 0 < pa then pgRound2 ((ta - pa) / pa * 100) else 0
    invoices_change_percent :=
      if 0 < prev.length then
        pgRound2 (((cur.length : Rat) - (prev.length : Rat)) / (prev.length : Rat) * 100)
      else 0 }

/-- First occurrence of character c replaced by the string rep, the
semantics of the JavaScript replace with a string pattern. -/
def replaceFirstChar (c : Char) (rep : List Char) : List Char → List Char
  | [] => []
  | x :: xs => if x = c then rep ++ xs else x :: replaceFirstChar c rep xs

/-- Rewriting of the period string spliced into the previous-period
INTERVAL literal: first d becomes the five characters of a space and days,
then in the result the first y becomes a space and year. -/
def transformPeriod (p : String) : String :=
  String.mk (replaceFirstChar 'y' (" year".toList)
    (replaceFirstChar 'd' (" days".toList) p.toList))

/-- Decimal digit run parsed to a natural number, none on a non-digit. -/
def parseDigitsAux (acc : Nat) : List Char → Option Nat
  | [] => some acc
  | c :: cs => if c.isDigit then parseDigitsAux (acc * 10 + (c.toNat - 48)) cs else none

/-- Nonempty all-digit token parsed to a natural number. -/
def parseDigits : List Char → Option Nat
  | [] => none
  | l => parseDigitsAux 0 l

/-- Space-separated tokens of a character list, accumulating the current
token in reverse. -/
def splitOnSpaceAux (cur : List Char) : List Char → List (List Char)
  | [] => [cur.reverse]
  | c :: cs => if c = ' ' then cur.reverse :: splitOnSpaceAux [] cs
               else splitOnSpaceAux (c :: cur) cs

/-- Space-separated tokens of a string. -/
def splitOnSpace (s : String) : List (List Char) :=
  splitOnSpaceAux [] s.toList

/-- Modelled from the external collaborator: a partial model of INTERVAL
literal acceptance by the PostgreSQL input parser.  It accepts the simple
number-space-unit shapes with day, month and year units and agrees with
the real parser on every literal this development evaluates concretely
(2 year is accepted; abc and 30 da years are rejected).  It is not total:
the real parser also accepts shapes outside this model (bare numbers read
as seconds, units such as week or hour, compound literals), so general
statements about the route are made over an arbitrary acceptance function
and this model is only ever applied to the concrete literals above. -/
def pgParseInterval (s : String) : Option PgInterval :=
  match splitOnSpace s with
  | [numTok, unitTok] =>
      match parseDigits numTok with
      | none => none
      | some n =>
          if unitTok == "day".toList || unitTok == "days".toList then
            some (.days (n : Int))
          else if unitTok == "month".toList || unitTok == "months".toList then
            some (.months (n : Int))
          else if unitTok == "year".toList || unitTok == "years".toList then
            some (.months (12 * (n : Int)))
          else none
  | _ => none

/-- Period selectors the dashboard switch recognizes. -/
def allowedDashboardPeriods : List String := ["7d", "30d", "90d", "1y"]

/-- Dashboard route handler, parametrized by the acceptance behavior of
the external store on the spliced previous-period interval literal: the
request succeeds exactly when the store accepts the literal, and any store
error is answered by the catch block with the generic 500 response. -/
def dashboardHandlerWith (accept : String → Option PgInterval)
    (period : String) (today : Date) (company : String)
    (store : List Invoice) : Except Nat DashboardMetrics :=
  match accept (transformPeriod period) with
  | none => Except.error 500
  | some iv => Except.ok (dashboardMetrics period today company store iv)

/-- Dashboard route handler at the partial interval-parser model, used for
the concrete literals the model covers. -/
def dashboardHandler (period : String) (today : Date) (company : String)
    (store : List Invoice) : Except Nat DashboardMetrics :=
  dashboardHandlerWith pgParseInterval period today company store

/-! Trend analyzer, GET /api/analytics/trends in routes/analytics.js.
The growth analysis builds monthly totals of invoice_date over the
trailing twelve months in ascending order, attaches LAG over that order,
computes the guarded growth rate, and returns the six most recent rows in
descending order. -/

/-- One row of the growth_analysis output. -/
structure GrowthRow where
  month : Int
  monthly_amount : Rat
  previous_month : Option Rat
  growth_rate : Rat
deriving DecidableEq

/-- Growth column: CASE WHEN LAG is positive THEN the rounded percent
change ELSE 0; a NULL LAG falls to the ELSE branch. -/
def lagGrowthRate (prev : Option Rat) (cur : Rat) : Rat :=
  match prev with
  | none => 0
  | some p => if 0 < p then pgRound2 ((cur - p) / p * 100) else 0

/-- LAG over the ascending monthly rows: each row carries the total of the
row before it, the first row carries the incoming value. -/
def withLag (prev : Option Rat) : List (Int × Rat) → List GrowthRow
  | [] => []
  | a :: rest =>
      { month := a.1, monthly_amount := a.2, previous_month := prev,
        growth_rate := lagGrowthRate prev a.2 } :: withLag (some a.2) rest

/-- Meaning of the growth_analysis query: ORDER BY month DESC LIMIT 6 over
the lagged monthly rows. -/
def growthAnalysis (today : Date) (company : String)
    (store : List Invoice) : List GrowthRow :=
  ((withLag none (monthlyTotalsAsc today 12 company store)).reverse).take 6

/-- Total amount of one calendar month among the in-window rows of the
trends queries; months without invoices total 0. -/
def trendMonthTotal (today : Date) (company : String) (store : List Invoice)
    (m : Int) : Rat :=
  sumAmounts ((store.filter
    (fun i => i.company_phone == company && invoiceWindowMonths today 12 i)).filter
    (fun i => invMonth i == m))

/-- Total of the nearest earlier grouped month: the last grouped pair whose
month precedes m, none when no grouped month precedes m.  On the ascending
grouped list this characterizes what the LAG column carries, including for
the last row the LIMIT keeps; stated for the amended claim, to compare
with the previous_month column. -/
def prevTotalIn (md : List (Int × Rat)) (m : Int) : Option Rat :=
  ((md.filter (fun x => x.1 < m)).getLast?).map (fun x => x.2)

/-! Invoice creation, POST /api/invoices in routes/invoices.js: a
transaction inserting the invoice row and upserting the supplier row of
the (name, company_phone) key. -/

/-- One row of the suppliers table, restricted to the columns the claims
read. -/
structure SupplierRow where
  name : String
  company_phone : String
  total_invoices : Nat
  total_amount : Rat
  last_invoice_date : Date
deriving DecidableEq

/-- Validated body of the create-invoice request (fields after the Joi
schema has applied defaults). -/
structure NewInvoice where
  company_phone : String
  supplier_name : String
  amount : Rat
  status : Status
  invoice_date : Option Date
  due_date : Option Date
  category : Option String
deriving DecidableEq

/-- Persisted state touched by invoice creation. -/
structure Store where
  invoices : List Invoice
  suppliers : List SupplierRow
  next_id : Nat
deriving DecidableEq

/-- Match of a supplier row against the upsert conflict key. -/
def supplierKeyMatch (n c : String) (r : SupplierRow) : Bool :=
  r.name == n && r.company_phone == c

/-- Supplier upsert of the transaction: INSERT a fresh counter row, ON
CONFLICT increment total_invoices, add the amount to total_amount and
overwrite last_invoice_date with the invoice date or the current time.
The unique key of the table makes at most one row match; the model updates
every matching row, which coincides under that invariant. -/
def upsertSupplier (now : Date) (req : NewInvoice) (l : List SupplierRow) :
    List SupplierRow :=
  let d := req.invoice_date.getD now
  if l.any (supplierKeyMatch req.supplier_name req.company_phone) then
    l.map (fun r =>
      if supplierKeyMatch req.supplier_name req.company_phone r then
        { r with total_invoices := r.total_invoices + 1,
                 total_amount := r.total_amount + req.amount,
                 last_invoice_date := d }
      else r)
  else
    l ++ [{ name := req.supplier_name, company_phone := req.company_phone,
            total_invoices := 1, total_amount := req.amount,
            last_invoice_date := d }]

/-- Invoice-creation transaction: append the invoice row with a fresh id
and the current creation time, then upsert the supplier counters. -/
def createInvoice (now : Date) (req : NewInvoice) (st : Store) : Store :=
  { invoices := st.invoices ++
      [{ id := st.next_id, company_phone := req.company_phone,
         supplier_name := req.supplier_name, amount := req.amount,
         status := req.status, invoice_date := req.invoice_date,
         due_date := req.due_date, created_at := now, confirmed_at := none,
         category := req.category }]
    suppliers := upsertSupplier now req st.suppliers
    next_id := st.next_id + 1 }

/-! Supplier ranking, GET /api/suppliers/analytics/top in
routes/suppliers.js.  The importance_score column combines volume,
frequency and recency with fixed weights. -/

/-- Importance score of one supplier group: total amount over 1000 times
0.4, plus invoice count times 0.3, plus thirty minus the capped days since
the last invoice, times 0.3. -/
def importance_score (total_amount : Rat) (invoice_count : Nat)
    (days_since_last : Int) : Rat :=
  total_amount / 1000 * (4/10) + (invoice_count : Rat) * (3/10) +
    (30 - min 30 (days_since_last : Rat)) * (3/10)

/-! Invoice listing, GET /api/invoices in routes/invoices.js: dynamically
assembled filters, an allow-listed sort column, a direction, LIMIT and
OFFSET, and a COUNT query sharing the same WHERE clause. -/

/-- Query-string parameters of the listing route after parsing; absent
parameters are none. -/
structure ListFilters where
  company_phone : Option String
  status : Option String
  category : Option String
  supplier : Option String
  date_from : Option Date
  date_to : Option Date
  limit : Nat
  offset : Nat
  sort_by : String
  sort_order : String
deriving DecidableEq

/-- Character-list version of beginning-of-list matching, used by the
substring test below. -/
def startsWithChars : List Char → List Char → Bool
  | [], _ => true
  | _ :: _, [] => false
  | a :: as, b :: bs => a == b && startsWithChars as bs

/-- Containment of one character list in another. -/
def hasSubChars (needle : List Char) : List Char → Bool
  | [] => needle.isEmpty
  | c :: rest => startsWithChars needle (c :: rest) || hasSubChars needle rest

/-- ILIKE with the pattern wrapped in percent signs: case-insensitive
substring containment. -/
def ilikeContains (pat : String) (s : String) : Bool :=
  hasSubChars pat.toLower.toList s.toLower.toList

/-- WHERE clause of the listing query on one row: each filter contributes
a conjunct only when its parameter is present. -/
def matchesListing (f : ListFilters) (i : Invoice) : Bool :=
  (match f.company_phone with
   | none => true
   | some c => i.company_phone == c) &&
  (match f.status with
   | none => true
   | some s => statusToString i.status == s) &&
  (match f.category with
   | none => true
   | some c => match i.category with
     | none => false
     | some ic => ilikeContains c ic) &&
  (match f.supplier with
   | none => true
   | some s => ilikeContains s i.supplier_name) &&
  (match f.date_from with
   | none => true
   | some d => match i.invoice_date with
     | none => false
     | some idt => decide (dayNumber d ≤ dayNumber idt)) &&
  (match f.date_to with
   | none => true
   | some d => match i.invoice_date with
     | none => false
     | some idt => decide (dayNumber idt ≤ dayNumber d))

/-- Claim-side restatement of the listing WHERE clause when no company
filter is given: only the non-company filters, with no access to the
company column.  Stated from the claim for comparison with
matchesListing. -/
def matchesOtherFilters (f : ListFilters) (i : Invoice) : Bool :=
  (match f.status with
   | none => true
   | some s => statusToString i.status == s) &&
  (match f.category with
   | none => true
   | some c => match i.category with
     | none => false
     | some ic => ilikeContains c ic) &&
  (match f.supplier with
   | none => true
   | some s => ilikeContains s i.supplier_name) &&
  (match f.date_from with
   | none => true
   | some d => match i.invoice_date with
     | none => false
     | some idt => decide (dayNumber d ≤ dayNumber idt)) &&
  (match f.date_to with
   | none => true
   | some d => match i.invoice_date with
     | none => false
     | some idt => decide (dayNumber idt ≤ dayNumber d))

/-- Sort columns the listing allow-list accepts. -/
def validSortColumns : List String :=
  ["created_at", "invoice_date", "amount", "supplier_name"]

/-- Sort column after validation against the allow-list. -/
def listingSortColumn (f : ListFilters) : String :=
  if f.sort_by ∈ validSortColumns then f.sort_by else "created_at"

/-- Ascending comparison of two rows on one sort column; a NULL
invoice_date sorts last, as the default ORDER BY does. -/
def invoiceKeyLeAsc (col : String) (a b : Invoice) : Bool :=
  if col == "invoice_date" then
    match a.invoice_date, b.invoice_date with
    | some x, some y => decide (dayNumber x ≤ dayNumber y)
    | some _, none => true
    | none, some _ => false
    | none, none => true
  else if col == "amount" then decide (a.amount ≤ b.amount)
  else if col == "supplier_name" then decide (a.supplier_name ≤ b.supplier_name)
  else decide (dayNumber a.created_at ≤ dayNumber b.created_at)

/-- Row order of the listing: the validated column, ascending exactly when
the upper-cased direction is ASC, else descending. -/
def listingRel (f : ListFilters) (a b : Invoice) : Bool :=
  if f.sort_order.toUpper == "ASC" then invoiceKeyLeAsc (listingSortColumn f) a b
  else invoiceKeyLeAsc (listingSortColumn f) b a

/-- Response of the listing route: the page of rows and the pagination
total of the COUNT query, which shares the WHERE clause and drops LIMIT
and OFFSET. -/
structure ListingResult where
  rows : List Invoice
  total : Nat
deriving DecidableEq

/-- Meaning of the listing route: filter, sort, OFFSET then LIMIT; the
total counts every matching row. -/
def listInvoices (f : ListFilters) (store : List Invoice) : ListingResult :=
  let matched := store.filter (fun i => matchesListing f i)
  let sorted := matched.insertionSort (fun a b => listingRel f a b = true)
  { rows := (sorted.drop f.offset).take f.limit
    total := matched.length }

end Facturia

namespace Facturia

/-- C1: the claim describes monthly cash-flow buckets, but the route cannot
produce them: the query() call of GET /api/analytics/cashflow passes no
bind values although its SQL references placeholder one, so every request
errors and the catch block answers 500.  Second conjunct: the SQL text
itself, with the company placeholder bound, does put the scenario invoice
(amount 121, due yesterday, status confirmed) into the overdue count and
amount of its due-date month bucket, confirming the formulas were the
intent. -/
theorem cashflow_route_unbound_placeholder_always_500 :
    (∀ (today : Date) (months : Int) (company : String) (store : List Invoice),
      cashflowHandler today months company store = Except.error 500) ∧
    cashflowMonthly ⟨2026, 10, 12⟩ 6 "+34600000000"
      [{ id := 1, company_phone := "+34600000000", supplier_name := "ACME",
         amount := 121, status := Status.confirmed, invoice_date := none,
         due_date := some ⟨2026, 10, 11⟩, created_at := ⟨2026, 10, 1⟩,
         confirmed_at := none, category := none }] =
      [{ month := 24321, pending_payments := 121, completed_payments := 0,
         overdue_count := 1, overdue_amount := 121 }] := by
  constructor
  · intro today months company store
    rfl
  · simp +decide [cashflowMonthly, cashflowBucket, monthKeys, sumAmounts]

/-- C2 counterexample: a company whose latest month (September, total 100)
is below the previous month (August, total 200).  The route computes
(MAX - MIN) / MIN, giving +100, while the claimed signed formula gives
-50; in particular the result is not negative although the latest total is
below the previous one. -/
theorem predictions_growth_rate_sign_counterexample :
    lastTwoMonthlyTotals ⟨2026, 10, 12⟩ "c"
      [{ id := 1, company_phone := "c", supplier_name := "A", amount := 200,
         status := Status.pending, invoice_date := some ⟨2026, 8, 15⟩,
         due_date := none, created_at := ⟨2026, 8, 15⟩, confirmed_at := none,
         category := none },
       { id := 2, company_phone := "c", supplier_name := "B", amount := 100,
         status := Status.pending, invoice_date := some ⟨2026, 9, 20⟩,
         due_date := none, created_at := ⟨2026, 9, 20⟩, confirmed_at := none,
         category := none }] = [(24320, 100), (24319, 200)] ∧
    predictionsGrowthRate ⟨2026, 10, 12⟩ "c"
      [{ id := 1, company_phone := "c", supplier_name := "A", amount := 200,
         status := Status.pending, invoice_date := some ⟨2026, 8, 15⟩,
         due_date := none, created_at := ⟨2026, 8, 15⟩, confirmed_at := none,
         category := none },
       { id := 2, company_phone := "c", supplier_name := "B", amount := 100,
         status := Status.pending, invoice_date := some ⟨2026, 9, 20⟩,
         due_date := none, created_at := ⟨2026, 9, 20⟩, confirmed_at := none,
         category := none }] = 100 ∧
    claimedSignedGrowth 100 200 = -50 ∧
    ((100 : Rat) = -50) = False := by
  refine ⟨?_, ?_, ?_, by norm_num⟩
  · simp +decide [lastTwoMonthlyTotals, monthlyTotalsAsc, monthKeys, sumAmounts]
  · simp +decide [predictionsGrowthRate, lastTwoMonthlyTotals,
      monthlyTotalsAsc, monthKeys, sumAmounts]
    norm_num
  · norm_num [claimedSignedGrowth]

/-- C2 amended: with two surviving months (latest total t1, previous total
t0, both positive), the growth rate the route reports is the unsigned
relative spread (MAX - MIN) / MIN times 100; it is never negative, and it
agrees with the claimed signed percent change exactly when the latest
total is at least the previous one. -/
theorem predictions_growth_rate_amended (today : Date) (company : String)
    (store : List Invoice) (m1 m0 : Int) (t1 t0 : Rat)
    (h : lastTwoMonthlyTotals today company store = [(m1, t1), (m0, t0)])
    (h1 : 0 < t1) (h0 : 0 < t0) :
    predictionsGrowthRate today company store
        = (max t1 t0 - min t1 t0) / min t1 t0 * 100 ∧
    0 ≤ predictionsGrowthRate today company store ∧
    (t0 ≤ t1 →
      predictionsGrowthRate today company store = (t1 - t0) / t0 * 100) := by
  have he : predictionsGrowthRate today company store
      = (max t1 t0 - min t1 t0) / min t1 t0 * 100 := by
    unfold predictionsGrowthRate
    rw [h]
  refine ⟨he, ?_, ?_⟩
  · rw [he]
    have hmin : 0 < min t1 t0 := lt_min h1 h0
    have hnum : 0 ≤ max t1 t0 - min t1 t0 := sub_nonneg.mpr min_le_max
    exact mul_nonneg (div_nonneg hnum (le_of_lt hmin)) (by norm_num)
  · intro hle
    rw [he, max_eq_left hle, min_eq_right hle]

/-- Witness for the amended C2 theorem at a concrete two-month store. -/
theorem predictions_growth_rate_amended_witness :
    predictionsGrowthRate ⟨2026, 10, 12⟩ "c"
      [{ id := 1, company_phone := "c", supplier_name := "A", amount := 200,
         status := Status.pending, invoice_date := some ⟨2026, 8, 15⟩,
         due_date := none, created_at := ⟨2026, 8, 15⟩, confirmed_at := none,
         category := none },
       { id := 2, company_phone := "c", supplier_name := "B", amount := 150,
         status := Status.pending, invoice_date := some ⟨2026, 9, 20⟩,
         due_date := none, created_at := ⟨2026, 9, 20⟩, confirmed_at := none,
         category := none }]
        = (max 150 200 - min 150 200) / min (150 : Rat) 200 * 100 ∧
    0 ≤ predictionsGrowthRate ⟨2026, 10, 12⟩ "c"
      [{ id := 1, company_phone := "c", supplier_name := "A", amount := 200,
         status := Status.pending, invoice_date := some ⟨2026, 8, 15⟩,
         due_date := none, created_at := ⟨2026, 8, 15⟩, confirmed_at := none,
         category := none },
       { id := 2, company_phone := "c", supplier_name := "B", amount := 150,
         status := Status.pending, invoice_date := some ⟨2026, 9, 20⟩,
         due_date := none, created_at := ⟨2026, 9, 20⟩, confirmed_at := none,
         category := none }] ∧
    ((200 : Rat) ≤ 150 →
      predictionsGrowthRate ⟨2026, 10, 12⟩ "c"
        [{ id := 1, company_phone := "c", supplier_name := "A", amount := 200,
           status := Status.pending, invoice_date := some ⟨2026, 8, 15⟩,
           due_date := none, created_at := ⟨2026, 8, 15⟩, confirmed_at := none,
           category := none },
         { id := 2, company_phone := "c", supplier_name := "B", amount := 150,
           status := Status.pending, invoice_date := some ⟨2026, 9, 20⟩,
           due_date := none, created_at := ⟨2026, 9, 20⟩, confirmed_at := none,
           category := none }] = (150 - 200) / 200 * 100) :=
  predictions_growth_rate_amended ⟨2026, 10, 12⟩ "c" _ 24320 24319 150 200
    (by simp +decide [lastTwoMonthlyTotals, monthlyTotalsAsc, monthKeys,
      sumAmounts])
    (by norm_num) (by norm_num)

/-- Sum of amounts is nonnegative on rows with nonnegative amounts. -/
theorem sumAmounts_nonneg (l : List Invoice) (h : ∀ i ∈ l, 0 ≤ i.amount) :
    0 ≤ sumAmounts l := by
  apply List.sum_nonneg
  intro x hx
  obtain ⟨i, hi, rfl⟩ := List.mem_map.1 hx
  exact h i hi

/-- Every pair of the ascending monthly totals carries the sum of the
in-window rows of its month. -/
theorem monthlyTotals_mem_snd (today : Date) (n : Int) (company : String)
    (store : List Invoice) (x : Int × Rat)
    (hx : x ∈ monthlyTotalsAsc today n company store) :
    x.2 = sumAmounts ((store.filter
      (fun i => i.company_phone == company && invoiceWindowMonths today n i)).filter
      (fun i => invMonth i == x.1)) := by
  simp only [monthlyTotalsAsc] at hx
  obtain ⟨m, hm, rfl⟩ := List.mem_map.1 hx
  rfl

/-- Monthly totals are nonnegative on stores with nonnegative amounts. -/
theorem monthlyTotals_snd_nonneg (today : Date) (n : Int) (company : String)
    (store : List Invoice) (hpos : ∀ i ∈ store, 0 ≤ i.amount) (x : Int × Rat)
    (hx : x ∈ monthlyTotalsAsc today n company store) : 0 ≤ x.2 := by
  rw [monthlyTotals_mem_snd today n company store x hx]
  apply sumAmounts_nonneg
  intro i hi
  exact hpos i (List.mem_filter.1 (List.mem_filter.1 hi).1).1

/-- Shape of every row the LAG pass produces: the growth column is the
guarded formula of its own fields, the previous value is the incoming one
or the total of some input pair, and month and total come from an input
pair. -/
theorem withLag_mem_spec (l : List (Int × Rat)) : ∀ (pr : Option Rat)
    (r : GrowthRow), r ∈ withLag pr l →
    r.growth_rate = lagGrowthRate r.previous_month r.monthly_amount ∧
    (r.previous_month = pr ∨ ∃ x ∈ l, r.previous_month = some x.2) ∧
    ∃ x ∈ l, r.month = x.1 ∧ r.monthly_amount = x.2 := by
  induction l with
  | nil =>
      intro pr r hr
      simp [withLag] at hr
  | cons a rest ih =>
      intro pr r hr
      simp only [withLag] at hr
      rcases List.mem_cons.1 hr with h | h
      · subst h
        exact ⟨rfl, Or.inl rfl, ⟨a, List.mem_cons_self a rest, rfl, rfl⟩⟩
      · obtain ⟨hg, hprev, x, hx, hxx⟩ := ih (some a.2) r h
        refine ⟨hg, ?_, ⟨x, List.mem_cons_of_mem a hx, hxx⟩⟩
        rcases hprev with h2 | h2
        · exact Or.inr ⟨a, List.mem_cons_self a rest, h2⟩
        · obtain ⟨y, hy, hyy⟩ := h2
          exact Or.inr ⟨y, List.mem_cons_of_mem a hy, hyy⟩

/-- The LAG pass preserves the row count. -/
theorem withLag_length (l : List (Int × Rat)) : ∀ (pr : Option Rat),
    (withLag pr l).length = l.length := by
  induction l with
  | nil => intro pr; rfl
  | cons a rest ih => intro pr; simp [withLag, ih]

/-- On a strictly month-ascending input, consecutive LAG rows are month
ascending and each row carries exactly the total of the row before it. -/
theorem withLag_chain (l : List (Int × Rat)) : ∀ (pr : Option Rat),
    List.Chain' (fun x y : Int × Rat => x.1 < y.1) l →
    List.Chain' (fun a b : GrowthRow =>
      a.month < b.month ∧ b.previous_month = some a.monthly_amount)
      (withLag pr l) := by
  induction l with
  | nil => intro pr _; simp [withLag]
  | cons a rest ih =>
      intro pr h
      cases rest with
      | nil => simp [withLag]
      | cons b rest2 =>
          have hab : a.1 < b.1 := (List.chain'_cons.1 h).1
          have ht := ih (some a.2) (List.chain'_cons.1 h).2
          simp only [withLag] at ht ⊢
          exact List.chain'_cons.2 ⟨⟨hab, rfl⟩, ht⟩

/-- GROUP BY keys are pairwise strictly ascending: sorted by the insertion
sort and distinct by the deduplication. -/
theorem monthKeys_pairwise_lt (l : List Invoice) (k : Invoice → Int) :
    List.Pairwise (fun a b : Int => a < b) (monthKeys l k) := by
  have hs : List.Sorted (fun a b : Int => a ≤ b) (monthKeys l k) :=
    List.sorted_insertionSort _ _
  have hnd : (monthKeys l k).Nodup :=
    ((List.perm_insertionSort (fun a b : Int => a ≤ b) ((l.map k).dedup)).nodup_iff).2
      (List.nodup_dedup _)
  exact (List.Pairwise.and hs hnd).imp (fun h => lt_of_le_of_ne h.1 h.2)

/-- GROUP BY keys are strictly ascending along the list. -/
theorem monthKeys_sorted_lt (l : List Invoice) (k : Invoice → Int) :
    List.Chain' (fun a b : Int => a < b) (monthKeys l k) :=
  (monthKeys_pairwise_lt l k).chain'

/-- The ascending monthly totals are strictly ascending on months. -/
theorem monthlyTotals_chain (today : Date) (n : Int) (company : String)
    (store : List Invoice) :
    List.Chain' (fun x y : Int × Rat => x.1 < y.1)
      (monthlyTotalsAsc today n company store) := by
  simp only [monthlyTotalsAsc]
  exact (List.chain'_map _).2 (monthKeys_sorted_lt _ _)

/-- The ascending monthly totals have pairwise strictly ascending months. -/
theorem monthlyTotals_pairwise (today : Date) (n : Int) (company : String)
    (store : List Invoice) :
    List.Pairwise (fun x y : Int × Rat => x.1 < y.1)
      (monthlyTotalsAsc today n company store) := by
  simp only [monthlyTotalsAsc]
  exact List.pairwise_map.2 (monthKeys_pairwise_lt _ _)

/-- On a pairwise month-ascending grouped list, every LAG row carries
exactly the total of the nearest earlier grouped month (none for the
earliest grouped month).  The list is generalized over an already
traversed prefix whose last total is the incoming accumulator. -/
theorem withLag_prev_nearest (l : List (Int × Rat)) : ∀ (pre : List (Int × Rat)),
    List.Pairwise (fun x y : Int × Rat => x.1 < y.1) (pre ++ l) →
    ∀ r ∈ withLag ((pre.getLast?).map (fun x => x.2)) l,
      r.previous_month = prevTotalIn (pre ++ l) r.month := by
  induction l with
  | nil =>
      intro pre hp r hr
      simp [withLag] at hr
  | cons a rest ih =>
      intro pre hp r hr
      simp only [withLag] at hr
      rcases List.mem_cons.1 hr with h | h
      · subst h
        show (pre.getLast?).map (fun x => x.2) = prevTotalIn (pre ++ a :: rest) a.1
        have h1 : pre.filter (fun x => x.1 < a.1) = pre := by
          apply List.filter_eq_self.2
          intro x hx
          have hlt := (List.pairwise_append.1 hp).2.2 x hx a (List.mem_cons_self a rest)
          exact decide_eq_true hlt
        have h2 : (a :: rest).filter (fun x => x.1 < a.1) = [] := by
          apply List.filter_eq_nil_iff.2
          intro x hx
          rcases List.mem_cons.1 hx with rfl | hx2
          · simp
          · have hpl := (List.pairwise_append.1 hp).2.1
            have hax : a.1 < x.1 := (List.pairwise_cons.1 hpl).1 x hx2
            simp only [decide_eq_true_eq]
            omega
        simp only [prevTotalIn, List.filter_append, h1, h2, List.append_nil]
      · have hp2 : List.Pairwise (fun x y : Int × Rat => x.1 < y.1)
            ((pre ++ [a]) ++ rest) := by
          simpa [List.append_assoc] using hp
        have hacc : (((pre ++ [a]).getLast?).map (fun x => x.2)) = some a.2 := by
          rw [List.getLast?_concat]
          rfl
        have hres := ih (pre ++ [a]) hp2 r (by rw [hacc]; exact h)
        simpa [List.append_assoc] using hres

/-- C4: each period-over-period percent figure follows the zero-guard
rule: the dashboard amount and invoice-count changes are 0 on a zero
previous base and the rounded relative change otherwise, and every trends
growth row with a previous total applies the same rule to it. -/
theorem percent_change_zero_guard (period : String) (today : Date)
    (company : String) (store : List Invoice) (iv : PgInterval)
    (hpos : ∀ i ∈ store, 0 < i.amount) :
    ((dashboardMetrics period today company store iv).prev_total_amount = 0 →
      (dashboardMetrics period today company store iv).amount_change_percent = 0) ∧
    ((dashboardMetrics period today company store iv).prev_total_amount ≠ 0 →
      (dashboardMetrics period today company store iv).amount_change_percent =
        pgRound2 (((dashboardMetrics period today company store iv).total_amount -
          (dashboardMetrics period today company store iv).prev_total_amount) /
          (dashboardMetrics period today company store iv).prev_total_amount * 100)) ∧
    ((dashboardMetrics period today company store iv).prev_total_invoices = 0 →
      (dashboardMetrics period today company store iv).invoices_change_percent = 0) ∧
    ((dashboardMetrics period today company store iv).prev_total_invoices ≠ 0 →
      (dashboardMetrics period today company store iv).invoices_change_percent =
        pgRound2 ((((dashboardMetrics period today company store iv).total_invoices : Rat) -
          ((dashboardMetrics period today company store iv).prev_total_invoices : Rat)) /
          ((dashboardMetrics period today company store iv).prev_total_invoices : Rat) * 100)) ∧
    (∀ r ∈ growthAnalysis today company store, ∀ p, r.previous_month = some p →
      (p = 0 → r.growth_rate = 0) ∧
      (p ≠ 0 → r.growth_rate = pgRound2 ((r.monthly_amount - p) / p * 100))) := by
  have e1 : (dashboardMetrics period today company store iv).prev_total_amount
      = sumAmounts (store.filter
        (fun i => i.company_phone == company && dashboardPrevWindow today iv i)) := rfl
  have e2 : (dashboardMetrics period today company store iv).amount_change_percent
      = (if 0 < (dashboardMetrics period today company store iv).prev_total_amount then
          pgRound2 (((dashboardMetrics period today company store iv).total_amount -
            (dashboardMetrics period today company store iv).prev_total_amount) /
            (dashboardMetrics period today company store iv).prev_total_amount * 100)
        else 0) := rfl
  have e4 : (dashboardMetrics period today company store iv).invoices_change_percent
      = (if 0 < (dashboardMetrics period today company store iv).prev_total_invoices then
          pgRound2 ((((dashboardMetrics period today company store iv).total_invoices : Rat) -
            ((dashboardMetrics period today company store iv).prev_total_invoices : Rat)) /
            ((dashboardMetrics period today company store iv).prev_total_invoices : Rat) * 100)
        else 0) := rfl
  have hpa : 0 ≤ (dashboardMetrics period today company store iv).prev_total_amount := by
    rw [e1]
    apply sumAmounts_nonneg
    intro i hi
    exact (hpos i (List.mem_filter.1 hi).1).le
  refine ⟨?_, ?_, ?_, ?_, ?_⟩
  · intro h0
    rw [e2, h0]
    simp
  · intro hne
    have hlt : 0 < (dashboardMetrics period today company store iv).prev_total_amount :=
      lt_of_le_of_ne hpa (Ne.symm hne)
    rw [e2, if_pos hlt]
  · intro h0
    rw [e4, h0]
    simp
  · intro hne
    have hlt : 0 < (dashboardMetrics period today company store iv).prev_total_invoices :=
      Nat.pos_of_ne_zero hne
    rw [e4, if_pos hlt]
  · intro r hr p hp
    have hr2 : r ∈ withLag none (monthlyTotalsAsc today 12 company store) := by
      simp only [growthAnalysis] at hr
      exact List.mem_reverse.1 (List.take_subset _ _ hr)
    obtain ⟨hg, hprev, -⟩ := withLag_mem_spec _ none r hr2
    have hp0 : 0 ≤ p := by
      rcases hprev with h | h
      · rw [hp] at h
        simp at h
      · obtain ⟨x, hx, hxx⟩ := h
        have : p = x.2 := by
          rw [hp] at hxx
          exact Option.some.inj hxx
        rw [this]
        exact monthlyTotals_snd_nonneg today 12 company store
          (fun i hi => (hpos i hi).le) x hx
    constructor
    · intro hz
      rw [hg, hp]
      simp [lagGrowthRate, hz]
    · intro hpne
      have hplt : 0 < p := lt_of_le_of_ne hp0 (Ne.symm hpne)
      rw [hg, hp]
      simp only [lagGrowthRate, if_pos hplt]

/-- Witness for C4 at a store with one current-window and one
previous-window invoice, exercising the nonzero branch. -/
theorem percent_change_zero_guard_witness :
    (dashboardMetrics "30d" ⟨2026, 10, 12⟩ "c"
      [{ id := 1, company_phone := "c", supplier_name := "A", amount := 50,
         status := Status.pending, invoice_date := some ⟨2026, 10, 5⟩,
         due_date := none, created_at := ⟨2026, 10, 5⟩, confirmed_at := none,
         category := none },
       { id := 2, company_phone := "c", supplier_name := "B", amount := 40,
         status := Status.pending, invoice_date := some ⟨2026, 9, 1⟩,
         due_date := none, created_at := ⟨2026, 9, 1⟩, confirmed_at := none,
         category := none }] (PgInterval.days 30)).amount_change_percent =
      pgRound2 (((dashboardMetrics "30d" ⟨2026, 10, 12⟩ "c"
      [{ id := 1, company_phone := "c", supplier_name := "A", amount := 50,
         status := Status.pending, invoice_date := some ⟨2026, 10, 5⟩,
         due_date := none, created_at := ⟨2026, 10, 5⟩, confirmed_at := none,
         category := none },
       { id := 2, company_phone := "c", supplier_name := "B", amount := 40,
         status := Status.pending, invoice_date := some ⟨2026, 9, 1⟩,
         due_date := none, created_at := ⟨2026, 9, 1⟩, confirmed_at := none,
         category := none }] (PgInterval.days 30)).total_amount -
        (dashboardMetrics "30d" ⟨2026, 10, 12⟩ "c"
      [{ id := 1, company_phone := "c", supplier_name := "A", amount := 50,
         status := Status.pending, invoice_date := some ⟨2026, 10, 5⟩,
         due_date := none, created_at := ⟨2026, 10, 5⟩, confirmed_at := none,
         category := none },
       { id := 2, company_phone := "c", supplier_name := "B", amount := 40,
         status := Status.pending, invoice_date := some ⟨2026, 9, 1⟩,
         due_date := none, created_at := ⟨2026, 9, 1⟩, confirmed_at := none,
         category := none }] (PgInterval.days 30)).prev_total_amount) /
        (dashboardMetrics "30d" ⟨2026, 10, 12⟩ "c"
      [{ id := 1, company_phone := "c", supplier_name := "A", amount := 50,
         status := Status.pending, invoice_date := some ⟨2026, 10, 5⟩,
         due_date := none, created_at := ⟨2026, 10, 5⟩, confirmed_at := none,
         category := none },
       { id := 2, company_phone := "c", supplier_name := "B", amount := 40,
         status := Status.pending, invoice_date := some ⟨2026, 9, 1⟩,
         due_date := none, created_at := ⟨2026, 9, 1⟩, confirmed_at := none,
         category := none }] (PgInterval.days 30)).prev_total_amount * 100) :=
  (percent_change_zero_guard "30d" ⟨2026, 10, 12⟩ "c" _ (PgInterval.days 30)
    (by
      intro i hi
      simp only [List.mem_cons, List.not_mem_nil, or_false] at hi
      rcases hi with rfl | rfl <;> norm_num)).2.1
    (by
      simp +decide [dashboardMetrics, dashboardPrevWindow, intervalLowerDn,
        intervalTwice, sumAmounts])

/-- C7 counterexample: invoices only in July (total 100) and September
(total 50).  The September growth row pairs with the July total 100,
although the immediately prior calendar month, August, has total 0 among
the windowed rows. -/
theorem trends_growth_prior_calendar_month_counterexample :
    growthAnalysis ⟨2026, 10, 12⟩ "c"
      [{ id := 1, company_phone := "c", supplier_name := "A", amount := 100,
         status := Status.pending, invoice_date := some ⟨2026, 7, 10⟩,
         due_date := none, created_at := ⟨2026, 7, 10⟩, confirmed_at := none,
         category := none },
       { id := 2, company_phone := "c", supplier_name := "B", amount := 50,
         status := Status.pending, invoice_date := some ⟨2026, 9, 5⟩,
         due_date := none, created_at := ⟨2026, 9, 5⟩, confirmed_at := none,
         category := none }] =
      [{ month := 24320, monthly_amount := 50, previous_month := some 100,
         growth_rate := -50 },
       { month := 24318, monthly_amount := 100, previous_month := none,
         growth_rate := 0 }] ∧
    trendMonthTotal ⟨2026, 10, 12⟩ "c"
      [{ id := 1, company_phone := "c", supplier_name := "A", amount := 100,
         status := Status.pending, invoice_date := some ⟨2026, 7, 10⟩,
         due_date := none, created_at := ⟨2026, 7, 10⟩, confirmed_at := none,
         category := none },
       { id := 2, company_phone := "c", supplier_name := "B", amount := 50,
         status := Status.pending, invoice_date := some ⟨2026, 9, 5⟩,
         due_date := none, created_at := ⟨2026, 9, 5⟩, confirmed_at := none,
         category := none }] 24319 = 0 ∧
    ((100 : Rat) = 0) = False := by
  refine ⟨?_, ?_, by norm_num⟩
  · simp +decide [growthAnalysis, withLag, monthlyTotalsAsc, monthKeys,
      sumAmounts, lagGrowthRate, pgRound2]
    norm_num
  · simp +decide [trendMonthTotal, sumAmounts]

/-- C7 amended: the growth analysis lists the months having invoices in
the trailing twelve months of invoice_date, at most six of them, most
recent first; each row pairs its total with the total of the nearest
earlier invoice-bearing month of the whole window, none exactly when no
earlier invoice-bearing month exists there (the LAG runs before the LIMIT,
so the sixth listed row still pairs with the seventh most recent such
month when one exists), and applies the guarded growth formula to that
pair; each total is the sum of its own calendar month. -/
theorem trends_growth_amended (today : Date) (company : String)
    (store : List Invoice) :
    List.Chain' (fun a b : GrowthRow =>
      b.month < a.month ∧ a.previous_month = some b.monthly_amount)
      (growthAnalysis today company store) ∧
    (growthAnalysis today company store).length =
      min 6 (monthlyTotalsAsc today 12 company store).length ∧
    (∀ r ∈ growthAnalysis today company store,
      r.previous_month =
        prevTotalIn (monthlyTotalsAsc today 12 company store) r.month) ∧
    ∀ r ∈ growthAnalysis today company store,
      r.monthly_amount = trendMonthTotal today company store r.month ∧
      r.growth_rate = lagGrowthRate r.previous_month r.monthly_amount := by
  refine ⟨?_, ?_, ?_, ?_⟩
  · have h1 := withLag_chain (monthlyTotalsAsc today 12 company store) none
      (monthlyTotals_chain today 12 company store)
    simp only [growthAnalysis]
    exact List.Chain'.take ((List.chain'_reverse).2 h1) 6
  · simp only [growthAnalysis, List.length_take, List.length_reverse,
      withLag_length]
  · intro r hr
    have hr2 : r ∈ withLag none (monthlyTotalsAsc today 12 company store) := by
      simp only [growthAnalysis] at hr
      exact List.mem_reverse.1 (List.take_subset _ _ hr)
    exact withLag_prev_nearest (monthlyTotalsAsc today 12 company store) []
      (monthlyTotals_pairwise today 12 company store) r hr2
  · intro r hr
    have hr2 : r ∈ withLag none (monthlyTotalsAsc today 12 company store) := by
      simp only [growthAnalysis] at hr
      exact List.mem_reverse.1 (List.take_subset _ _ hr)
    obtain ⟨hg, -, x, hx, hm, ha⟩ := withLag_mem_spec _ none r hr2
    constructor
    · rw [ha, hm, monthlyTotals_mem_snd today 12 company store x hx]
      rfl
    · exact hg

/-- C3 counterexample: an invoice whose confirmed_at is already set is
confirmed again at a later date, and the stored confirmed_at moves to the
new date instead of staying unchanged. -/
theorem change_status_confirmed_at_overwritten_counterexample :
    changeInvoiceStatus ⟨2026, 2, 2⟩ "confirmed"
      { id := 7, company_phone := "c", supplier_name := "s", amount := 10,
        status := Status.confirmed, invoice_date := none, due_date := none,
        created_at := ⟨2026, 1, 1⟩, confirmed_at := some ⟨2026, 1, 5⟩,
        category := none } =
      Except.ok
        { id := 7, company_phone := "c", supplier_name := "s", amount := 10,
          status := Status.confirmed, invoice_date := none, due_date := none,
          created_at := ⟨2026, 1, 1⟩, confirmed_at := some ⟨2026, 2, 2⟩,
          category := none } ∧
    some (⟨2026, 2, 2⟩ : Date) ≠ some (⟨2026, 1, 5⟩ : Date) := by
  exact ⟨rfl, by decide⟩

/-- C3 amended: the status-change operation writes confirmed_at to the
current time on every request whose status is confirmed, whether or not it
was already set, and leaves it unchanged for the other two statuses; a
value outside the enum is rejected with 400 and mutates nothing. -/
theorem change_status_sets_confirmed_at_on_every_confirm :
    ∀ (inv : Invoice) (now : Date),
      (∃ out, changeInvoiceStatus now "confirmed" inv = Except.ok out ∧
        out.confirmed_at = some now ∧ out.status = Status.confirmed) ∧
      (∃ out, changeInvoiceStatus now "pending" inv = Except.ok out ∧
        out.confirmed_at = inv.confirmed_at ∧ out.status = Status.pending) ∧
      (∃ out, changeInvoiceStatus now "paid" inv = Except.ok out ∧
        out.confirmed_at = inv.confirmed_at ∧ out.status = Status.paid) ∧
      changeInvoiceStatus now "archived" inv = Except.error 400 := by
  intro inv now
  exact ⟨⟨_, rfl, rfl, rfl⟩, ⟨_, rfl, rfl, rfl⟩, ⟨_, rfl, rfl, rfl⟩, rfl⟩

/-- Filtering a conditional map by a predicate the update preserves keeps
exactly the updated matching rows. -/
theorem filter_map_update (l : List SupplierRow) (p : SupplierRow → Bool)
    (f : SupplierRow → SupplierRow) (hpf : ∀ r, p (f r) = p r) :
    (l.map (fun r => if p r then f r else r)).filter p = (l.filter p).map f := by
  induction l with
  | nil => rfl
  | cons a rest ih =>
      cases hpa : p a with
      | true => simp [List.filter_cons, hpa, hpf a, ih]
      | false => simp [List.filter_cons, hpa, ih]

/-- C5: a first invoice for an unknown (supplier, company) pair creates
exactly one supplier row with count one and the invoice amount; a second
invoice for the same pair leaves that single row with count two and the
sum of the two amounts. -/
theorem supplier_counters_upsert (st : Store) (r1 r2 : NewInvoice)
    (now1 now2 : Date)
    (hname : r2.supplier_name = r1.supplier_name)
    (hcomp : r2.company_phone = r1.company_phone)
    (h0 : st.suppliers.filter
      (fun r => supplierKeyMatch r1.supplier_name r1.company_phone r) = []) :
    ((createInvoice now1 r1 st).suppliers.filter
      (fun r => supplierKeyMatch r1.supplier_name r1.company_phone r)).map
      (fun r => (r.total_invoices, r.total_amount)) = [(1, r1.amount)] ∧
    ((createInvoice now2 r2 (createInvoice now1 r1 st)).suppliers.filter
      (fun r => supplierKeyMatch r1.supplier_name r1.company_phone r)).map
      (fun r => (r.total_invoices, r.total_amount)) = [(2, r1.amount + r2.amount)] := by
  have hall : ∀ r ∈ st.suppliers,
      ¬ supplierKeyMatch r1.supplier_name r1.company_phone r = true := by
    intro r hr
    intro hk
    have : r ∈ st.suppliers.filter
        (fun r => supplierKeyMatch r1.supplier_name r1.company_phone r) :=
      List.mem_filter.2 ⟨hr, hk⟩
    rw [h0] at this
    cases this
  have hany : st.suppliers.any
      (fun r => supplierKeyMatch r1.supplier_name r1.company_phone r) = false := by
    rw [List.any_eq_false]
    exact hall
  have hkeyself : ∀ (d : Date),
      supplierKeyMatch r1.supplier_name r1.company_phone
        { name := r1.supplier_name, company_phone := r1.company_phone,
          total_invoices := 1, total_amount := r1.amount,
          last_invoice_date := d } = true := by
    intro d
    simp [supplierKeyMatch]
  have hsup1 : (createInvoice now1 r1 st).suppliers
      = st.suppliers ++
        [{ name := r1.supplier_name, company_phone := r1.company_phone,
           total_invoices := 1, total_amount := r1.amount,
           last_invoice_date := r1.invoice_date.getD now1 }] := by
    show upsertSupplier now1 r1 st.suppliers = _
    simp only [upsertSupplier]
    rw [if_neg]
    intro hc
    rw [hany] at hc
    cases hc
  have hfil1 : (createInvoice now1 r1 st).suppliers.filter
      (fun r => supplierKeyMatch r1.supplier_name r1.company_phone r)
      = [{ name := r1.supplier_name, company_phone := r1.company_phone,
           total_invoices := 1, total_amount := r1.amount,
           last_invoice_date := r1.invoice_date.getD now1 }] := by
    rw [hsup1, List.filter_append, h0, List.nil_append]
    simp [List.filter_cons, hkeyself]
  constructor
  · rw [hfil1]
    rfl
  · have hsup2 : (createInvoice now2 r2 (createInvoice now1 r1 st)).suppliers
        = ((createInvoice now1 r1 st).suppliers).map
          (fun r =>
            if supplierKeyMatch r1.supplier_name r1.company_phone r then
              { r with total_invoices := r.total_invoices + 1,
                       total_amount := r.total_amount + r2.amount,
                       last_invoice_date := r2.invoice_date.getD now2 }
            else r) := by
      show upsertSupplier now2 r2 (createInvoice now1 r1 st).suppliers = _
      simp only [upsertSupplier, hname, hcomp]
      rw [if_pos]
      rw [hsup1, List.any_append, hany]
      simp [hkeyself]
    rw [hsup2, filter_map_update (createInvoice now1 r1 st).suppliers
      (fun r => supplierKeyMatch r1.supplier_name r1.company_phone r)
      (fun r => { r with
                    total_invoices := r.total_invoices + 1,
                    total_amount := r.total_amount + r2.amount,
                    last_invoice_date := r2.invoice_date.getD now2 })
      (fun r => rfl), hfil1]
    rfl

/-- Witness for C5: amounts 100 then 50 yield counters one with 100 and
two with 150. -/
theorem supplier_counters_upsert_witness :
    ((createInvoice ⟨2026, 10, 1⟩
      { company_phone := "c", supplier_name := "ACME", amount := 100,
        status := Status.pending, invoice_date := none, due_date := none,
        category := none }
      { invoices := [], suppliers := [], next_id := 0 }).suppliers.filter
      (fun r => supplierKeyMatch "ACME" "c" r)).map
      (fun r => (r.total_invoices, r.total_amount)) = [(1, 100)] ∧
    ((createInvoice ⟨2026, 10, 2⟩
      { company_phone := "c", supplier_name := "ACME", amount := 50,
        status := Status.pending, invoice_date := none, due_date := none,
        category := none }
      (createInvoice ⟨2026, 10, 1⟩
        { company_phone := "c", supplier_name := "ACME", amount := 100,
          status := Status.pending, invoice_date := none, due_date := none,
          category := none }
        { invoices := [], suppliers := [], next_id := 0 })).suppliers.filter
      (fun r => supplierKeyMatch "ACME" "c" r)).map
      (fun r => (r.total_invoices, r.total_amount)) = [(2, 150)] := by
  have h := supplier_counters_upsert
    { invoices := [], suppliers := [], next_id := 0 }
    { company_phone := "c", supplier_name := "ACME", amount := 100,
      status := Status.pending, invoice_date := none, due_date := none,
      category := none }
    { company_phone := "c", supplier_name := "ACME", amount := 50,
      status := Status.pending, invoice_date := none, due_date := none,
      category := none }
    ⟨2026, 10, 1⟩ ⟨2026, 10, 2⟩ rfl rfl rfl
  exact ⟨h.1, h.2.trans (by norm_num)⟩

/-- C10: after every invoice creation the matching supplier row carries
exactly the created invoice date (or the creation time when that date is
absent), whatever value was stored before. -/
theorem supplier_last_invoice_date_overwritten (st : Store) (req : NewInvoice)
    (now : Date) :
    ∀ r ∈ (createInvoice now req st).suppliers.filter
      (fun r => supplierKeyMatch req.supplier_name req.company_phone r),
      r.last_invoice_date = req.invoice_date.getD now := by
  intro r hr
  obtain ⟨hmem, hkey⟩ := List.mem_filter.1 hr
  have hmem2 : r ∈ upsertSupplier now req st.suppliers := hmem
  simp only [upsertSupplier] at hmem2
  by_cases hany : st.suppliers.any
      (fun r => supplierKeyMatch req.supplier_name req.company_phone r) = true
  · rw [if_pos hany] at hmem2
    obtain ⟨x, hx, hxr⟩ := List.mem_map.1 hmem2
    by_cases hkx : supplierKeyMatch req.supplier_name req.company_phone x = true
    · rw [if_pos hkx] at hxr
      rw [← hxr]
    · rw [if_neg hkx] at hxr
      rw [← hxr] at hkey
      exact absurd hkey hkx
  · rw [if_neg hany] at hmem2
    rcases List.mem_append.1 hmem2 with h | h
    · exact absurd (List.any_eq_true.2 ⟨r, h, hkey⟩) hany
    · rcases List.mem_singleton.1 h with rfl
      rfl

/-- Witness for C10: a back-dated invoice moves the stored
last_invoice_date backwards from 2026-09-30 to 2026-01-15. -/
theorem supplier_last_invoice_date_overwritten_witness :
    ({ name := "ACME", company_phone := "c", total_invoices := 4,
       total_amount := 510, last_invoice_date := ⟨2026, 1, 15⟩ } :
        SupplierRow).last_invoice_date
      = (some (⟨2026, 1, 15⟩ : Date)).getD ⟨2026, 10, 12⟩ ∧
    ({ name := "ACME", company_phone := "c", total_invoices := 4,
       total_amount := 510, last_invoice_date := ⟨2026, 1, 15⟩ } :
        SupplierRow) ∈
      (createInvoice ⟨2026, 10, 12⟩
        { company_phone := "c", supplier_name := "ACME", amount := 10,
          status := Status.pending, invoice_date := some ⟨2026, 1, 15⟩,
          due_date := none, category := none }
        { invoices := [],
          suppliers := [{ name := "ACME", company_phone := "c",
                          total_invoices := 3, total_amount := 500,
                          last_invoice_date := ⟨2026, 9, 30⟩ }],
          next_id := 5 }).suppliers.filter
        (fun r => supplierKeyMatch "ACME" "c" r) ∧
    dayNumber ⟨2026, 1, 15⟩ < dayNumber ⟨2026, 9, 30⟩ := by
  have hmem :
      ({ name := "ACME", company_phone := "c", total_invoices := 4,
         total_amount := 510, last_invoice_date := ⟨2026, 1, 15⟩ } :
          SupplierRow) ∈
        (createInvoice ⟨2026, 10, 12⟩
          { company_phone := "c", supplier_name := "ACME", amount := 10,
            status := Status.pending, invoice_date := some ⟨2026, 1, 15⟩,
            due_date := none, category := none }
          { invoices := [],
            suppliers := [{ name := "ACME", company_phone := "c",
                            total_invoices := 3, total_amount := 500,
                            last_invoice_date := ⟨2026, 9, 30⟩ }],
            next_id := 5 }).suppliers.filter
          (fun r => supplierKeyMatch "ACME" "c" r) := by
    simp +decide [createInvoice, upsertSupplier, supplierKeyMatch]
    norm_num
  refine ⟨?_, hmem, by decide⟩
  exact supplier_last_invoice_date_overwritten
    { invoices := [],
      suppliers := [{ name := "ACME", company_phone := "c",
                      total_invoices := 3, total_amount := 500,
                      last_invoice_date := ⟨2026, 9, 30⟩ }],
      next_id := 5 }
    { company_phone := "c", supplier_name := "ACME", amount := 10,
      status := Status.pending, invoice_date := some ⟨2026, 1, 15⟩,
      due_date := none, category := none }
    ⟨2026, 10, 12⟩ _ hmem

/-- C6: the importance score is monotone non-decreasing separately in the
total amount and in the invoice count, the other inputs held fixed. -/
theorem importance_score_monotone (a a' : Rat) (c c' : Nat) (d : Int)
    (ha : a ≤ a') (hc : c ≤ c') :
    importance_score a c d ≤ importance_score a' c d ∧
    importance_score a c d ≤ importance_score a c' d := by
  constructor
  · unfold importance_score
    gcongr
  · unfold importance_score
    gcongr

/-- Witness for C6 at concrete score inputs. -/
theorem importance_score_monotone_witness :
    importance_score 100 5 10 ≤ importance_score 250 5 10 ∧
    importance_score 100 5 10 ≤ importance_score 100 8 10 :=
  importance_score_monotone 100 250 5 8 10 (by norm_num) (by norm_num)

/-- C8: with no company_phone parameter the listing WHERE clause degrades
to the non-company filters, so a row of any company passes it whenever the
other filters accept the row, and the pagination total counts the matching
rows of every company. -/
theorem listing_company_filter_optional (f : ListFilters) (store : List Invoice)
    (h : f.company_phone = none) :
    (∀ i, matchesListing f i = matchesOtherFilters f i) ∧
    (listInvoices f store).total =
      (store.filter (fun i => matchesOtherFilters f i)).length ∧
    (∀ i c, matchesListing f { i with company_phone := c } = matchesListing f i) := by
  have hm : ∀ i, matchesListing f i = matchesOtherFilters f i := by
    intro i
    simp [matchesListing, matchesOtherFilters, h]
  refine ⟨hm, ?_, ?_⟩
  · show (store.filter (fun i => matchesListing f i)).length = _
    rw [List.filter_congr (fun x _ => hm x)]
  · intro i c
    rw [hm, hm]
    rfl

/-- Witness for C8 at a store holding invoices of two companies. -/
theorem listing_company_filter_optional_witness :
    (∀ i, matchesListing
      { company_phone := none, status := some "pending", category := none,
        supplier := none, date_from := none, date_to := none, limit := 50,
        offset := 0, sort_by := "created_at", sort_order := "DESC" } i =
      matchesOtherFilters
      { company_phone := none, status := some "pending", category := none,
        supplier := none, date_from := none, date_to := none, limit := 50,
        offset := 0, sort_by := "created_at", sort_order := "DESC" } i) ∧
    (listInvoices
      { company_phone := none, status := some "pending", category := none,
        supplier := none, date_from := none, date_to := none, limit := 50,
        offset := 0, sort_by := "created_at", sort_order := "DESC" }
      [{ id := 1, company_phone := "a", supplier_name := "A", amount := 5,
         status := Status.pending, invoice_date := none, due_date := none,
         created_at := ⟨2026, 10, 1⟩, confirmed_at := none, category := none },
       { id := 2, company_phone := "b", supplier_name := "B", amount := 6,
         status := Status.pending, invoice_date := none, due_date := none,
         created_at := ⟨2026, 10, 2⟩, confirmed_at := none,
         category := none }]).total =
      ([{ id := 1, company_phone := "a", supplier_name := "A", amount := 5,
          status := Status.pending, invoice_date := none, due_date := none,
          created_at := ⟨2026, 10, 1⟩, confirmed_at := none, category := none },
        { id := 2, company_phone := "b", supplier_name := "B", amount := 6,
          status := Status.pending, invoice_date := none, due_date := none,
          created_at := ⟨2026, 10, 2⟩, confirmed_at := none,
          category := none }].filter (fun i => matchesOtherFilters
      { company_phone := none, status := some "pending", category := none,
        supplier := none, date_from := none, date_to := none, limit := 50,
        offset := 0, sort_by := "created_at", sort_order := "DESC" } i)).length ∧
    (∀ i c, matchesListing
      { company_phone := none, status := some "pending", category := none,
        supplier := none, date_from := none, date_to := none, limit := 50,
        offset := 0, sort_by := "created_at", sort_order := "DESC" }
        { i with company_phone := c } =
      matchesListing
      { company_phone := none, status := some "pending", category := none,
        supplier := none, date_from := none, date_to := none, limit := 50,
        offset := 0, sort_by := "created_at", sort_order := "DESC" } i) :=
  listing_company_filter_optional
    { company_phone := none, status := some "pending", category := none,
      supplier := none, date_from := none, date_to := none, limit := 50,
      offset := 0, sort_by := "created_at", sort_order := "DESC" }
    _ rfl

/-- C9 counterexample: the period 2y lies outside the allow list, yet its
spliced interval literal 2 year is valid, so the request succeeds instead
of failing with 500.  The last two conjuncts document the first-occurrence
replacements: even the in-list period 30d is spliced as the invalid
literal 30 da years, because the y of days is replaced too. -/
theorem dashboard_period_2y_counterexample :
    transformPeriod "2y" = "2 year" ∧
    ("2y" ∈ allowedDashboardPeriods) = False ∧
    dashboardHandler "2y" ⟨2026, 10, 12⟩ "c" [] ≠ Except.error 500 ∧
    transformPeriod "30d" = "30 da years" ∧
    pgParseInterval "30 da years" = none := by
  refine ⟨by decide, by decide, ?_, by decide, by decide⟩
  have hEq : dashboardHandler "2y" ⟨2026, 10, 12⟩ "c" [] =
      Except.ok (dashboardMetrics "2y" ⟨2026, 10, 12⟩ "c" []
        (PgInterval.months 24)) := rfl
  rw [hEq]
  intro h
  exact Except.noConfusion h

/-- C9 amended: outside the allow list the current-period filter falls
back to the 30-day window, and the request fails with the generic 500
exactly when the external store rejects the spliced previous-period
interval literal — stated over an arbitrary acceptance behavior of the
store, so it holds whatever interval grammar the store implements; a
period whose spliced literal the store accepts, such as 2y, succeeds. -/
theorem dashboard_invalid_period_defaults_and_splice
    (accept : String → Option PgInterval) (period : String)
    (today : Date) (company : String) (store : List Invoice)
    (h : period ∉ allowedDashboardPeriods) :
    (∀ i, dashboardCurrentWindow period today i
        = decide (dayNumber today - 30 ≤ dayNumber i.created_at)) ∧
    (dashboardHandlerWith accept period today company store = Except.error 500 ↔
      accept (transformPeriod period) = none) := by
  have h4 : ¬(period = "7d" ∨ period = "30d" ∨ period = "90d" ∨ period = "1y") := by
    simpa [allowedDashboardPeriods] using h
  push_neg at h4
  constructor
  · intro i
    simp [dashboardCurrentWindow, h4.1, h4.2.1, h4.2.2.1, h4.2.2.2]
  · unfold dashboardHandlerWith
    cases hp : accept (transformPeriod period) with
    | none => simp [hp]
    | some iv => simp [hp]

/-- Witness for the amended C9 theorem at the period abc, with the store
acceptance instantiated to the partial parser model, which agrees with the
real parser on the one literal this instance examines. -/
theorem dashboard_invalid_period_defaults_and_splice_witness :
    (∀ i, dashboardCurrentWindow "abc" ⟨2026, 10, 12⟩ i
        = decide (dayNumber ⟨2026, 10, 12⟩ - 30 ≤ dayNumber i.created_at)) ∧
    (dashboardHandlerWith pgParseInterval "abc" ⟨2026, 10, 12⟩ "c" [] =
        Except.error 500 ↔
      pgParseInterval (transformPeriod "abc") = none) :=
  dashboard_invalid_period_defaults_and_splice pgParseInterval "abc"
    ⟨2026, 10, 12⟩ "c" [] (by decide)

end Facturia
